import Mathlib

/-!
Verification of the reveal-merge algorithm of `rgb-core`
(`src/contract/reveal.rs`).

The source defines a trait `IntoRevealed` with three implementations:
* `OwnedState<STATE>::into_revealed` — the scalar layer, joining two
  disclosure levels of one state value after a commitment check;
* `Assignments::into_revealed` — the collection layer, zipping two
  same-kind vectors of owned states after an aggregate commitment check;
* `OwnedRightsInner::into_revealed` — the map layer, zipping two ordered
  maps (BTreeMap iteration order) after a Merkle-sourced commitment check.

The embedding is parametric in the four component types of an owned state
(revealed/confidential seal, revealed/confidential assigned state) and in
the commitment function, which the source only ever compares for equality.
-/

namespace RgbCore

/-- Merge Error generated in merging operation (`reveal.rs`, `enum Error`).
`AnchorsMismatch` and `NodeMismatch` are reserved for sibling merge
operations; the node type is kept abstract as a natural number tag. -/
inductive Error where
  | OwnedStateMismatch
  | AssignmentMismatch
  | OwnedRightsMismatch
  | AnchorsMismatch
  | NodeMismatch (nodeType : Nat)
deriving DecidableEq

/-- `OwnedState<STATE>` (from `contract/assignments.rs`, used by
`reveal.rs`): a state value at one of four disclosure levels.
`SealR`/`SealC` are the revealed/confidential seal-definition types,
`StateR`/`StateC` the revealed/confidential assigned-state types. -/
inductive OwnedState (SealR SealC StateR StateC : Type) where
  | Confidential (seal_definition : SealC) (assigned_state : StateC)
  | ConfidentialSeal (seal_definition : SealC) (assigned_state : StateR)
  | ConfidentialAmount (seal_definition : SealR) (assigned_state : StateC)
  | Revealed (seal_definition : SealR) (assigned_state : StateR)
deriving DecidableEq

variable {SealR SealC StateR StateC : Type} {γ : Type}

/-- The disclosure level of an owned state, abstracted away from the
carried data. -/
inductive Level where
  | Confidential
  | ConfidentialSeal
  | ConfidentialAmount
  | Revealed
deriving DecidableEq

/-- Disclosure level of an `OwnedState` (the variant tag). -/
def OwnedState.level : OwnedState SealR SealC StateR StateC → Level
  | .Confidential _ _ => .Confidential
  | .ConfidentialSeal _ _ => .ConfidentialSeal
  | .ConfidentialAmount _ _ => .ConfidentialAmount
  | .Revealed _ _ => .Revealed

/-- The confidentiality lattice order on disclosure levels:
`Confidential ⊑ ConfidentialSeal ⊑ Revealed`,
`Confidential ⊑ ConfidentialAmount ⊑ Revealed`;
`ConfidentialSeal` and `ConfidentialAmount` are incomparable. -/
def Level.le : Level → Level → Bool
  | .Confidential, _ => true
  | _, .Revealed => true
  | .ConfidentialSeal, .ConfidentialSeal => true
  | .ConfidentialAmount, .ConfidentialAmount => true
  | _, _ => false

/-- Modelled from the spec: the commitment serialization of an owned
state. The source obtains it from the external `CommitEncode` machinery
(outside `src/`): the state is concealed to its fully `Confidential` form
(seal and assigned state each replaced by their deterministic confidential
commitment) and that form is serialized. Here the confidential pair itself
stands for its canonical serialization, and `concealSeal`/`concealState`
are the deterministic concealment functions of the commitment scheme. -/
def OwnedState.commit_serialize (concealSeal : SealR → SealC)
    (concealState : StateR → StateC) :
    OwnedState SealR SealC StateR StateC → SealC × StateC
  | .Confidential sc tc => (sc, tc)
  | .ConfidentialSeal sc tr => (sc, concealState tr)
  | .ConfidentialAmount sr tc => (concealSeal sr, tc)
  | .Revealed sr tr => (concealSeal sr, concealState tr)

/-- The pure case analysis of `OwnedState::into_revealed` (`reveal.rs`
lines 90–138), factored out of the commitment guard: every arm of the
source match returns `Ok`, so the match itself is a total join. Arms are
listed in source order; an or-pattern of the source becomes two
consecutive arms, first alternative first. -/
def OwnedState.reveal_join :
    OwnedState SealR SealC StateR StateC →
    OwnedState SealR SealC StateR StateC →
    OwnedState SealR SealC StateR StateC
  | _, .Revealed sl st => .Revealed sl st
  | .Revealed sl st, _ => .Revealed sl st
  | .ConfidentialSeal _ st, .ConfidentialAmount sl _ => .Revealed sl st
  | .ConfidentialAmount sl _, .ConfidentialSeal _ st => .Revealed sl st
  | .ConfidentialAmount sl st, .ConfidentialAmount _ _ =>
      .ConfidentialAmount sl st
  | .ConfidentialSeal sl st, .ConfidentialSeal _ _ =>
      .ConfidentialSeal sl st
  | s, .Confidential _ _ => s
  | .Confidential _ _, s => s

/-- `OwnedState::into_revealed` (`reveal.rs` lines 85–140): if the two
commitment serializations differ the merge fails with
`OwnedStateMismatch`; otherwise the join of the two disclosure levels is
returned. `cs` is the commitment-serialization function, which the source
only compares for equality. -/
def OwnedState.into_revealed [DecidableEq γ]
    (cs : OwnedState SealR SealC StateR StateC → γ)
    (self other : OwnedState SealR SealC StateR StateC) :
    Except Error (OwnedState SealR SealC StateR StateC) :=
  if cs self ≠ cs other then .error .OwnedStateMismatch
  else .ok (self.reveal_join other)

/-- Result of a collection- or map-level merge: `ok`, a typed error, or
the fatal `unreachable!` panic of the source (which is not a typed error
value). -/
inductive MergeResult (α : Type) where
  | ok (value : α)
  | error (e : Error)
  | fatal (msg : String)
deriving DecidableEq

/-- `Assignments` (from `contract/assignments.rs`): an ordered collection
of owned states, tagged with one of three state kinds. `reveal.rs` treats
the three kinds by identical code, so the embedding carries the same
element type under each tag. -/
inductive Assignments (SealR SealC StateR StateC : Type) where
  | Declarative (states : List (OwnedState SealR SealC StateR StateC))
  | DiscreteFiniteField (states : List (OwnedState SealR SealC StateR StateC))
  | CustomData (states : List (OwnedState SealR SealC StateR StateC))
deriving DecidableEq

/-- The kind tag of an `Assignments` collection. -/
inductive AssignmentsKind where
  | Declarative
  | DiscreteFiniteField
  | CustomData
deriving DecidableEq

/-- Kind tag of a collection. -/
def Assignments.kind : Assignments SealR SealC StateR StateC → AssignmentsKind
  | .Declarative _ => .Declarative
  | .DiscreteFiniteField _ => .DiscreteFiniteField
  | .CustomData _ => .CustomData

/-- The element vector of a collection. -/
def Assignments.states :
    Assignments SealR SealC StateR StateC →
    List (OwnedState SealR SealC StateR StateC)
  | .Declarative xs => xs
  | .DiscreteFiniteField xs => xs
  | .CustomData xs => xs

/-- Build a collection from a kind tag and an element vector. -/
def mkAssignments (k : AssignmentsKind)
    (xs : List (OwnedState SealR SealC StateR StateC)) :
    Assignments SealR SealC StateR StateC :=
  match k with
  | .Declarative => .Declarative xs
  | .DiscreteFiniteField => .DiscreteFiniteField xs
  | .CustomData => .CustomData xs

/-- Modelled from the spec: `Assignments::consensus_commitments` (defined
outside `src/`, in `contract/assignments.rs`): the aggregate commitment of
a collection, a list of the per-element commitments, independent of each
element's disclosure level (spec §4.2, §6: the commitment function is
"applied … to an aggregate over a collection", and equal aggregates
guarantee equal length). -/
def Assignments.consensus_commitments [DecidableEq γ]
    (cs : OwnedState SealR SealC StateR StateC → γ) :
    Assignments SealR SealC StateR StateC → List γ
  | .Declarative xs => xs.map cs
  | .DiscreteFiniteField xs => xs.map cs
  | .CustomData xs => xs.map cs

/-- The per-kind merge loop of `Assignments::into_revealed` (`reveal.rs`
lines 153–159 and its two copies): zip the two vectors, scalar-merge each
aligned pair, propagate the first error, collect results in order. -/
def mergeVec [DecidableEq γ] (cs : OwnedState SealR SealC StateR StateC → γ) :
    List (OwnedState SealR SealC StateR StateC) →
    List (OwnedState SealR SealC StateR StateC) →
    Except Error (List (OwnedState SealR SealC StateR StateC))
  | [], _ => .ok []
  | _ :: _, [] => .ok []
  | x :: xs, y :: ys =>
    match x.into_revealed cs y with
    | .error e => .error e
    | .ok m =>
      match mergeVec cs xs ys with
      | .error e => .error e
      | .ok rest => .ok (m :: rest)

/-- `Assignments::into_revealed` (`reveal.rs` lines 144–193): fail with
`AssignmentMismatch` when the consensus commitments differ; for matching
kinds run the positional merge loop; the remaining kind-mismatch patterns
are the source's `unreachable!("Assignments::consensus_commitments is
broken")`. -/
def Assignments.into_revealed [DecidableEq γ]
    (cs : OwnedState SealR SealC StateR StateC → γ)
    (self other : Assignments SealR SealC StateR StateC) :
    MergeResult (Assignments SealR SealC StateR StateC) :=
  if self.consensus_commitments cs ≠ other.consensus_commitments cs then
    .error .AssignmentMismatch
  else
    match self, other with
    | .Declarative xs, .Declarative ys =>
      match mergeVec cs xs ys with
      | .error e => .error e
      | .ok r => .ok (.Declarative r)
    | .DiscreteFiniteField xs, .DiscreteFiniteField ys =>
      match mergeVec cs xs ys with
      | .error e => .error e
      | .ok r => .ok (.DiscreteFiniteField r)
    | .CustomData xs, .CustomData ys =>
      match mergeVec cs xs ys with
      | .error e => .error e
      | .ok r => .ok (.CustomData r)
    | _, _ => .fatal "Assignments::consensus_commitments is broken"

/-- `OwnedRightsInner` (a newtype over `OwnedRights =
BTreeMap<OwnedRightType, Assignments>`): embedded as the map's entry list
in BTreeMap iteration order (strictly increasing keys); the `Wrapper`
methods `into_inner`/`from_inner` are the identity on this view. -/
abbrev OwnedRightsInner (SealR SealC StateR StateC : Type) :=
  List (Nat × Assignments SealR SealC StateR StateC)

/-- Modelled from the spec: `to_merkle_source().commit_serialize()` for an
owned-rights map (the Merkle-source machinery lives outside `src/`): a
structural commitment over the full ordered map, each key paired with the
concealed canonical form of its collection — its kind and its aggregate
commitment (spec §4.3, §6: a "Merkle-sourced structural digest over a
map" of the key/value pairs with values in concealed canonical form). -/
def OwnedRightsInner.merkle_commit_serialize [DecidableEq γ]
    (cs : OwnedState SealR SealC StateR StateC → γ)
    (m : OwnedRightsInner SealR SealC StateR StateC) :
    List (Nat × AssignmentsKind × List γ) :=
  m.map fun kv => (kv.1, kv.2.kind, kv.2.consensus_commitments cs)

/-- `BTreeMap::insert` on the sorted entry-list view: replace an existing
binding of the key or insert at the ordered position. -/
def btreeInsert (k : Nat) (v : Assignments SealR SealC StateR StateC) :
    List (Nat × Assignments SealR SealC StateR StateC) →
    List (Nat × Assignments SealR SealC StateR StateC)
  | [] => [(k, v)]
  | (k2, v2) :: rest =>
    if k < k2 then (k, v) :: (k2, v2) :: rest
    else if k = k2 then (k, v) :: rest
    else (k2, v2) :: btreeInsert k v rest

/-- The loop of `OwnedRightsInner::into_revealed` (`reveal.rs` lines
203–210): zip the two entry lists, collection-merge each aligned pair of
values, insert the result under the first map's key, propagate the first
error (or panic) immediately. -/
def mapMergeLoop [DecidableEq γ]
    (cs : OwnedState SealR SealC StateR StateC → γ) :
    List (Nat × Assignments SealR SealC StateR StateC) →
    List (Nat × Assignments SealR SealC StateR StateC) →
    List (Nat × Assignments SealR SealC StateR StateC) →
    MergeResult (OwnedRightsInner SealR SealC StateR StateC)
  | result, [], _ => .ok result
  | result, _ :: _, [] => .ok result
  | result, (k, v) :: xs, (_, w) :: ys =>
    match v.into_revealed cs w with
    | .ok m => mapMergeLoop cs (btreeInsert k m result) xs ys
    | .error e => .error e
    | .fatal s => .fatal s

/-- `OwnedRightsInner::into_revealed` (`reveal.rs` lines 197–212): fail
with `OwnedRightsMismatch` when the Merkle-sourced commitment
serializations differ, else run the zip-and-insert loop starting from an
empty map. -/
def OwnedRightsInner.into_revealed [DecidableEq γ]
    (cs : OwnedState SealR SealC StateR StateC → γ)
    (self other : OwnedRightsInner SealR SealC StateR StateC) :
    MergeResult (OwnedRightsInner SealR SealC StateR StateC) :=
  if self.merkle_commit_serialize cs ≠ other.merkle_commit_serialize cs then
    .error .OwnedRightsMismatch
  else mapMergeLoop cs [] self other

/-! ### Helper lemmas -/

/-- When the commitment guard passes, the scalar merge is the pure join. -/
lemma OwnedState.into_revealed_guard_pass [DecidableEq γ]
    (cs : OwnedState SealR SealC StateR StateC → γ)
    {a b : OwnedState SealR SealC StateR StateC} (h : cs a = cs b) :
    a.into_revealed cs b = .ok (a.reveal_join b) := by
  simp [OwnedState.into_revealed, h]

/-- The pure join is symmetric provided same-level operands are equal. -/
lemma OwnedState.reveal_join_comm
    {a b : OwnedState SealR SealC StateR StateC}
    (h : a.level = b.level → a = b) :
    a.reveal_join b = b.reveal_join a := by
  cases a <;> cases b <;>
    first
      | rfl
      | (simp [OwnedState.level] at h; simp [OwnedState.reveal_join, h])

/-- With injective concealment functions, commitment-equal operands at the
same disclosure level are equal. -/
lemma OwnedState.eq_of_commit_eq_of_level_eq
    {concealSeal : SealR → SealC} {concealState : StateR → StateC}
    (hs : Function.Injective concealSeal)
    (ht : Function.Injective concealState)
    {a b : OwnedState SealR SealC StateR StateC}
    (h : a.commit_serialize concealSeal concealState =
      b.commit_serialize concealSeal concealState)
    (hl : a.level = b.level) : a = b := by
  cases a <;> cases b <;>
    simp [OwnedState.level] at hl <;>
    simp only [OwnedState.commit_serialize, Prod.mk.injEq] at h <;>
    obtain ⟨h1, h2⟩ := h <;>
    first
      | (exact congrArg₂ _ h1 h2)
      | (exact congrArg₂ _ h1 (ht h2))
      | (exact congrArg₂ _ (hs h1) h2)
      | (exact congrArg₂ _ (hs h1) (ht h2))

/-- When every aligned pair of elements is commitment-equal (equal mapped
commitment lists), the merge loop succeeds with the positional joins. -/
lemma mergeVec_ok [DecidableEq γ]
    (cs : OwnedState SealR SealC StateR StateC → γ) :
    ∀ xs ys : List (OwnedState SealR SealC StateR StateC),
      xs.map cs = ys.map cs →
      mergeVec cs xs ys = .ok (List.zipWith OwnedState.reveal_join xs ys) := by
  intro xs
  induction xs with
  | nil =>
    intro ys h
    cases ys with
    | nil => rfl
    | cons y ys => simp at h
  | cons x xs ih =>
    intro ys h
    cases ys with
    | nil => simp at h
    | cons y ys =>
      simp only [List.map_cons, List.cons.injEq] at h
      obtain ⟨h1, h2⟩ := h
      simp [mergeVec, OwnedState.into_revealed_guard_pass _ h1, ih ys h2]

/-- Aggregate commitment of a rebuilt collection. -/
lemma consensus_mkAssignments [DecidableEq γ]
    (cs : OwnedState SealR SealC StateR StateC → γ) (k : AssignmentsKind)
    (xs : List (OwnedState SealR SealC StateR StateC)) :
    (mkAssignments k xs).consensus_commitments cs = xs.map cs := by
  cases k <;> rfl

/-- Kind of a rebuilt collection. -/
lemma kind_mkAssignments (k : AssignmentsKind)
    (xs : List (OwnedState SealR SealC StateR StateC)) :
    (mkAssignments k xs).kind = k := by
  cases k <;> rfl

/-- Every collection is its kind applied to its element vector. -/
lemma mkAssignments_kind_states (a : Assignments SealR SealC StateR StateC) :
    mkAssignments a.kind a.states = a := by
  cases a <;> rfl

/-- When the consensus commitments agree and the kinds agree, the
collection merge succeeds and returns the positional joins under the
common kind. -/
lemma Assignments.into_revealed_same_kind_ok [DecidableEq γ]
    (cs : OwnedState SealR SealC StateR StateC → γ)
    {a b : Assignments SealR SealC StateR StateC}
    (hc : a.consensus_commitments cs = b.consensus_commitments cs)
    (hk : a.kind = b.kind) :
    a.into_revealed cs b =
      .ok (mkAssignments a.kind
        (List.zipWith OwnedState.reveal_join a.states b.states)) := by
  cases a <;> cases b <;> simp [Assignments.kind] at hk <;>
    simp only [Assignments.consensus_commitments] at hc <;>
    simp [Assignments.into_revealed, Assignments.consensus_commitments, hc,
      mergeVec_ok cs _ _ hc, Assignments.kind, mkAssignments,
      Assignments.states]

/-- Element vector of a rebuilt collection. -/
lemma states_mkAssignments (k : AssignmentsKind)
    (xs : List (OwnedState SealR SealC StateR StateC)) :
    (mkAssignments k xs).states = xs := by
  cases k <;> rfl

/-- Equal mapped lists are pointwise equal under the map function. -/
lemma map_eq_forall₂ {α β : Type} (f : α → β) :
    ∀ a b : List α, a.map f = b.map f →
      List.Forall₂ (fun x y => f x = f y) a b := by
  intro a
  induction a with
  | nil =>
    intro b h
    cases b with
    | nil => exact List.Forall₂.nil
    | cons y ys => simp at h
  | cons x xs ih =>
    intro b h
    cases b with
    | nil => simp at h
    | cons y ys =>
      simp only [List.map_cons, List.cons.injEq] at h
      exact List.Forall₂.cons h.1 (ih ys h.2)

/-- Inserting a key greater than every key of a sorted entry list appends
the binding at the end. -/
lemma btreeInsert_append (k : Nat)
    (v : Assignments SealR SealC StateR StateC) :
    ∀ acc, (∀ p ∈ acc, p.1 < k) → btreeInsert k v acc = acc ++ [(k, v)] := by
  intro acc
  induction acc with
  | nil => intro _; rfl
  | cons p rest ih =>
    intro h
    obtain ⟨k2, v2⟩ := p
    have h2 : k2 < k := h (k2, v2) (by simp)
    rw [btreeInsert, if_neg (by omega), if_neg (by omega)]
    rw [ih fun q hq => h q (by simp [hq])]
    simp

/-- The entry the map-merge loop produces for an aligned pair of entries
whose collection merge succeeds: the first map's key, with the positional
join of the two collections under the first collection's kind. -/
def mergedEntry (p q : Nat × Assignments SealR SealC StateR StateC) :
    Nat × Assignments SealR SealC StateR StateC :=
  (p.1, mkAssignments p.2.kind
    (List.zipWith OwnedState.reveal_join p.2.states q.2.states))

/-- When every aligned pair of entries carries kind-equal,
commitment-equal collections and the first map's keys are strictly
increasing, the map-merge loop extends the accumulator with the merged
entries in order. -/
lemma mapMergeLoop_ok [DecidableEq γ]
    (cs : OwnedState SealR SealC StateR StateC → γ)
    (a b : List (Nat × Assignments SealR SealC StateR StateC))
    (hf : List.Forall₂ (fun p q => p.2.kind = q.2.kind ∧
      p.2.consensus_commitments cs = q.2.consensus_commitments cs) a b) :
    ∀ acc, List.Pairwise (fun p q => p.1 < q.1) a →
      (∀ p ∈ acc, ∀ q ∈ a, p.1 < q.1) →
      mapMergeLoop cs acc a b = .ok (acc ++ List.zipWith mergedEntry a b) := by
  induction hf with
  | nil =>
    intro acc _ _
    simp [mapMergeLoop]
  | @cons p q l1 l2 hpq hf ih =>
    intro acc hsort hacc
    obtain ⟨k, v⟩ := p
    obtain ⟨k2, w⟩ := q
    rw [List.pairwise_cons] at hsort
    simp only [mapMergeLoop,
      Assignments.into_revealed_same_kind_ok cs hpq.2 hpq.1]
    rw [btreeInsert_append _ _ acc fun x hx => hacc x hx (k, v) (by simp)]
    rw [ih (acc ++ [(k, mkAssignments (k, v).2.kind
        (List.zipWith OwnedState.reveal_join (k, v).2.states
          (k2, w).2.states))]) hsort.2 ?_]
    · simp [mergedEntry]
    · intro x hx q2 hq2
      rcases List.mem_append.mp hx with hx1 | hx1
      · exact hacc x hx1 q2 (by simp [hq2])
      · have : x = (k, mkAssignments (k, v).2.kind
            (List.zipWith OwnedState.reveal_join (k, v).2.states
              (k2, w).2.states)) := by simpa using hx1
        rw [this]
        exact hsort.1 q2 hq2

/-- When the Merkle-sourced commitments agree and the first map's keys are
strictly increasing, the map merge succeeds with the zip of merged
entries. -/
lemma OwnedRightsInner.into_revealed_of_merkle_eq [DecidableEq γ]
    (cs : OwnedState SealR SealC StateR StateC → γ)
    {a b : OwnedRightsInner SealR SealC StateR StateC}
    (hsort : List.Pairwise (fun p q => p.1 < q.1) a)
    (h : a.merkle_commit_serialize cs = b.merkle_commit_serialize cs) :
    a.into_revealed cs b = .ok (List.zipWith mergedEntry a b) := by
  have hf := map_eq_forall₂ _ a b h
  have hf2 : List.Forall₂ (fun p q => p.2.kind = q.2.kind ∧
      p.2.consensus_commitments cs = q.2.consensus_commitments cs) a b := by
    refine hf.imp fun p q hpq => ?_
    simp only [Prod.mk.injEq] at hpq
    exact ⟨hpq.2.1, hpq.2.2⟩
  simp [OwnedRightsInner.into_revealed, h,
    mapMergeLoop_ok cs a b hf2 [] hsort (by simp)]

/-! ### Scalar-layer claims -/

/-- C9: for every state `x`, `merge_scalar(x, x) = Ok(x)`: merging any
state with itself succeeds and returns that same state, at every
disclosure level. -/
theorem merge_scalar_idempotent [DecidableEq γ]
    (cs : OwnedState SealR SealC StateR StateC → γ) :
    ∀ x : OwnedState SealR SealC StateR StateC,
      x.into_revealed cs x = .ok x := by
  intro x
  cases x <;> simp [OwnedState.into_revealed, OwnedState.reveal_join]

/-- C5: whenever the scalar merge succeeds, the disclosure level of the
result is above both operands' levels in the confidentiality lattice — a
merge never lowers disclosure. -/
theorem merge_scalar_monotone [DecidableEq γ]
    (cs : OwnedState SealR SealC StateR StateC → γ) :
    ∀ a b c : OwnedState SealR SealC StateR StateC,
      a.into_revealed cs b = .ok c →
      Level.le a.level c.level = true ∧ Level.le b.level c.level = true := by
  intro a b c h
  rw [OwnedState.into_revealed] at h
  split at h
  · exact absurd h (by simp)
  · injection h with h
    subst h
    cases a <;> cases b <;>
      simp [OwnedState.reveal_join, OwnedState.level, Level.le]

/-- C5 witness: a concrete successful merge, checked against the
lattice. -/
theorem merge_scalar_monotone_witness :
    Level.le (OwnedState.ConfidentialSeal 1 2 :
        OwnedState Nat Nat Nat Nat).level (OwnedState.Revealed 3 2 :
        OwnedState Nat Nat Nat Nat).level = true ∧
    Level.le (OwnedState.ConfidentialAmount 3 4 :
        OwnedState Nat Nat Nat Nat).level (OwnedState.Revealed 3 2 :
        OwnedState Nat Nat Nat Nat).level = true :=
  merge_scalar_monotone (fun _ => (0 : Nat)) (.ConfidentialSeal 1 2)
    (.ConfidentialAmount 3 4) (.Revealed 3 2) rfl

/-- C2: on commitment-equal operands, `ConfidentialSeal` merged with
`ConfidentialAmount` (either order) yields `Ok` of a `Revealed` state
whose seal definition comes from the `ConfidentialAmount` operand and
whose assigned state comes from the `ConfidentialSeal` operand. -/
theorem merge_scalar_cross_completion [DecidableEq γ]
    (cs : OwnedState SealR SealC StateR StateC → γ) :
    ∀ (sc : SealC) (p : StateR) (sl : SealR) (pc : StateC),
      cs (.ConfidentialSeal sc p) = cs (.ConfidentialAmount sl pc) →
      OwnedState.into_revealed cs (.ConfidentialSeal sc p)
          (.ConfidentialAmount sl pc) = .ok (.Revealed sl p) ∧
      OwnedState.into_revealed cs (.ConfidentialAmount sl pc)
          (.ConfidentialSeal sc p) = .ok (.Revealed sl p) := by
  intro sc p sl pc h
  refine ⟨?_, ?_⟩
  · simp [OwnedState.into_revealed, OwnedState.reveal_join, h]
  · simp [OwnedState.into_revealed, OwnedState.reveal_join, h.symm]

/-- C2 witness: the cross-completion at a concrete commitment-equal
pair. -/
theorem merge_scalar_cross_completion_witness :
    OwnedState.into_revealed
        (OwnedState.commit_serialize (id : Nat → Nat) (id : Nat → Nat))
        (OwnedState.ConfidentialSeal 5 7) (OwnedState.ConfidentialAmount 5 7)
      = .ok (.Revealed 5 7) ∧
    OwnedState.into_revealed
        (OwnedState.commit_serialize (id : Nat → Nat) (id : Nat → Nat))
        (OwnedState.ConfidentialAmount 5 7) (OwnedState.ConfidentialSeal 5 7)
      = .ok (.Revealed 5 7) :=
  merge_scalar_cross_completion _ 5 7 5 7 (by decide)

/-- C10: on commitment-equal operands of the same variant, which operand's
representation survives depends on the variant: two `Revealed` operands
merge to the second (`other`), while two `ConfidentialSeal`, two
`ConfidentialAmount` or two `Confidential` operands merge to the first
(`self`). -/
theorem merge_scalar_same_variant [DecidableEq γ]
    (cs : OwnedState SealR SealC StateR StateC → γ) :
    (∀ (s1 : SealR) (v1 : StateR) (s2 : SealR) (v2 : StateR),
      cs (.Revealed s1 v1) = cs (.Revealed s2 v2) →
      OwnedState.into_revealed cs (.Revealed s1 v1) (.Revealed s2 v2)
        = .ok (.Revealed s2 v2)) ∧
    (∀ (s1 : SealC) (v1 : StateR) (s2 : SealC) (v2 : StateR),
      cs (.ConfidentialSeal s1 v1) = cs (.ConfidentialSeal s2 v2) →
      OwnedState.into_revealed cs (.ConfidentialSeal s1 v1)
        (.ConfidentialSeal s2 v2) = .ok (.ConfidentialSeal s1 v1)) ∧
    (∀ (s1 : SealR) (v1 : StateC) (s2 : SealR) (v2 : StateC),
      cs (.ConfidentialAmount s1 v1) = cs (.ConfidentialAmount s2 v2) →
      OwnedState.into_revealed cs (.ConfidentialAmount s1 v1)
        (.ConfidentialAmount s2 v2) = .ok (.ConfidentialAmount s1 v1)) ∧
    (∀ (s1 : SealC) (v1 : StateC) (s2 : SealC) (v2 : StateC),
      cs (.Confidential s1 v1) = cs (.Confidential s2 v2) →
      OwnedState.into_revealed cs (.Confidential s1 v1)
        (.Confidential s2 v2) = .ok (.Confidential s1 v1)) := by
  refine ⟨?_, ?_, ?_, ?_⟩ <;>
    (intro s1 v1 s2 v2 h
     simp [OwnedState.into_revealed, OwnedState.reveal_join, h])

/-- C10 witness: concrete same-variant merges under a constant commitment
function. -/
theorem merge_scalar_same_variant_witness :
    (OwnedState.into_revealed (fun _ => (0 : Nat))
      (OwnedState.Revealed 1 2 : OwnedState Nat Nat Nat Nat)
      (OwnedState.Revealed 3 4) = .ok (.Revealed 3 4)) ∧
    (OwnedState.into_revealed (fun _ => (0 : Nat))
      (OwnedState.ConfidentialSeal 1 2 : OwnedState Nat Nat Nat Nat)
      (OwnedState.ConfidentialSeal 3 4) = .ok (.ConfidentialSeal 1 2)) :=
  ⟨(merge_scalar_same_variant (fun _ => (0 : Nat))).1 1 2 3 4 rfl,
   (merge_scalar_same_variant (fun _ => (0 : Nat))).2.1 1 2 3 4 rfl⟩

/-- C1: at each of the three layers, operands with unequal commitments are
rejected with the layer's typed mismatch error and no merged value:
`OwnedStateMismatch` for scalars, `AssignmentMismatch` for collections,
`OwnedRightsMismatch` for maps. -/
theorem merge_mismatch_rejection [DecidableEq γ]
    (cs : OwnedState SealR SealC StateR StateC → γ) :
    (∀ a b : OwnedState SealR SealC StateR StateC, cs a ≠ cs b →
      a.into_revealed cs b = .error .OwnedStateMismatch) ∧
    (∀ a b : Assignments SealR SealC StateR StateC,
      a.consensus_commitments cs ≠ b.consensus_commitments cs →
      a.into_revealed cs b = .error .AssignmentMismatch) ∧
    (∀ a b : OwnedRightsInner SealR SealC StateR StateC,
      a.merkle_commit_serialize cs ≠ b.merkle_commit_serialize cs →
      a.into_revealed cs b = .error .OwnedRightsMismatch) := by
  refine ⟨?_, ?_, ?_⟩ <;> intro a b h
  · simp [OwnedState.into_revealed, h]
  · simp [Assignments.into_revealed, h]
  · simp [OwnedRightsInner.into_revealed, h]

/-- C1 witness: a commitment mismatch at each layer, rejected with the
layer's error. -/
theorem merge_mismatch_rejection_witness :
    OwnedState.into_revealed
        (OwnedState.commit_serialize (id : Nat → Nat) (id : Nat → Nat))
        (OwnedState.Revealed 0 0) (OwnedState.Revealed 1 0)
      = .error .OwnedStateMismatch ∧
    Assignments.into_revealed
        (OwnedState.commit_serialize (id : Nat → Nat) (id : Nat → Nat))
        (Assignments.Declarative [OwnedState.Revealed 0 0])
        (Assignments.Declarative [OwnedState.Revealed 1 0])
      = .error .AssignmentMismatch ∧
    OwnedRightsInner.into_revealed
        (OwnedState.commit_serialize (id : Nat → Nat) (id : Nat → Nat))
        [(1, Assignments.Declarative [OwnedState.Revealed 0 0])]
        [(1, Assignments.Declarative [OwnedState.Revealed 1 0])]
      = .error .OwnedRightsMismatch :=
  ⟨(merge_mismatch_rejection _).1 _ _ (by decide),
   (merge_mismatch_rejection _).2.1 _ _ (by decide),
   (merge_mismatch_rejection _).2.2 _ _ (by decide)⟩

/-- C7: under the spec's idealized collision-resistant commitment scheme
(injective concealment), the scalar merge is commutative on
commitment-equal operands. -/
theorem merge_scalar_comm [DecidableEq SealC] [DecidableEq StateC]
    (concealSeal : SealR → SealC) (concealState : StateR → StateC)
    (hs : Function.Injective concealSeal)
    (ht : Function.Injective concealState) :
    ∀ a b : OwnedState SealR SealC StateR StateC,
      a.commit_serialize concealSeal concealState =
        b.commit_serialize concealSeal concealState →
      a.into_revealed (OwnedState.commit_serialize concealSeal concealState) b
        = b.into_revealed
            (OwnedState.commit_serialize concealSeal concealState) a := by
  intro a b h
  rw [OwnedState.into_revealed_guard_pass _ h,
    OwnedState.into_revealed_guard_pass _ h.symm]
  exact congrArg _ (OwnedState.reveal_join_comm fun hl =>
    OwnedState.eq_of_commit_eq_of_level_eq hs ht h hl)

/-- C7 witness: commutativity at a concrete commitment-equal pair. -/
theorem merge_scalar_comm_witness :
    OwnedState.into_revealed
        (OwnedState.commit_serialize (id : Nat → Nat) (id : Nat → Nat))
        (OwnedState.Revealed 2 3) (OwnedState.Confidential 2 3)
      = OwnedState.into_revealed
          (OwnedState.commit_serialize (id : Nat → Nat) (id : Nat → Nat))
          (OwnedState.Confidential 2 3) (OwnedState.Revealed 2 3) :=
  merge_scalar_comm id id Function.injective_id Function.injective_id
    (.Revealed 2 3) (.Confidential 2 3) (by decide)

/-- C8: under the idealized collision-resistant commitment scheme, a
`Revealed` operand absorbs any commitment-equal operand: the merge returns
`Ok` of the `Revealed` operand itself. -/
theorem merge_scalar_top_absorption [DecidableEq SealC] [DecidableEq StateC]
    (concealSeal : SealR → SealC) (concealState : StateR → StateC)
    (hs : Function.Injective concealSeal)
    (ht : Function.Injective concealState) :
    ∀ (sl : SealR) (v : StateR) (b : OwnedState SealR SealC StateR StateC),
      (OwnedState.Revealed sl v).commit_serialize concealSeal concealState =
        b.commit_serialize concealSeal concealState →
      (OwnedState.Revealed sl v).into_revealed
          (OwnedState.commit_serialize concealSeal concealState) b
        = .ok (.Revealed sl v) := by
  intro sl v b h
  rw [OwnedState.into_revealed_guard_pass _ h]
  cases b with
  | Revealed s2 v2 =>
    have hb := OwnedState.eq_of_commit_eq_of_level_eq hs ht h
      (by simp [OwnedState.level])
    rw [← hb]
    simp [OwnedState.reveal_join]
  | Confidential sc tc => simp [OwnedState.reveal_join]
  | ConfidentialSeal sc tr => simp [OwnedState.reveal_join]
  | ConfidentialAmount sr tc => simp [OwnedState.reveal_join]

/-- C8 witness: top absorption at a concrete commitment-equal pair. -/
theorem merge_scalar_top_absorption_witness :
    (OwnedState.Revealed 2 3 : OwnedState Nat Nat Nat Nat).into_revealed
        (OwnedState.commit_serialize (id : Nat → Nat) (id : Nat → Nat))
        (OwnedState.ConfidentialSeal 2 3)
      = .ok (.Revealed 2 3) :=
  merge_scalar_top_absorption id id Function.injective_id
    Function.injective_id 2 3 (.ConfidentialSeal 2 3) (by decide)

/-! ### Collection-layer claims -/

/-- C4: merging two same-kind collections with equal aggregate commitments
succeeds with a collection of the same length whose i-th element is the
scalar merge of the operands' i-th elements, in original order; and the
merge loop propagates any positional scalar-merge failure as the whole
result, with no partial result. -/
theorem merge_collection_order_preservation [DecidableEq γ]
    (cs : OwnedState SealR SealC StateR StateC → γ) :
    (∀ (k : AssignmentsKind)
        (xs ys : List (OwnedState SealR SealC StateR StateC)),
      (mkAssignments k xs).consensus_commitments cs =
          (mkAssignments k ys).consensus_commitments cs →
      ∃ r, (mkAssignments k xs).into_revealed cs (mkAssignments k ys)
            = .ok (mkAssignments k r) ∧
        r.length = xs.length ∧ ys.length = xs.length ∧
        ∀ (i : Nat) (hx : i < xs.length) (hy : i < ys.length)
            (hr : i < r.length),
          OwnedState.into_revealed cs (xs.get ⟨i, hx⟩) (ys.get ⟨i, hy⟩)
            = .ok (r.get ⟨i, hr⟩)) ∧
    (∀ (x y : OwnedState SealR SealC StateR StateC) xs ys e,
      OwnedState.into_revealed cs x y = .error e →
      mergeVec cs (x :: xs) (y :: ys) = .error e) ∧
    (∀ (x y : OwnedState SealR SealC StateR StateC) xs ys m e,
      OwnedState.into_revealed cs x y = .ok m →
      mergeVec cs xs ys = .error e →
      mergeVec cs (x :: xs) (y :: ys) = .error e) := by
  refine ⟨?_, ?_, ?_⟩
  · intro k xs ys hc
    rw [consensus_mkAssignments, consensus_mkAssignments] at hc
    have hlen : ys.length = xs.length := by
      have := congrArg List.length hc
      simpa using this.symm
    have hmain := Assignments.into_revealed_same_kind_ok cs
      (a := mkAssignments k xs) (b := mkAssignments k ys)
      (by rw [consensus_mkAssignments, consensus_mkAssignments]; exact hc)
      (by rw [kind_mkAssignments, kind_mkAssignments])
    rw [kind_mkAssignments, states_mkAssignments, states_mkAssignments]
      at hmain
    refine ⟨List.zipWith OwnedState.reveal_join xs ys, hmain, ?_, hlen, ?_⟩
    · simp [hlen]
    · intro i hx hy hr
      have hcsi : cs (xs.get ⟨i, hx⟩) = cs (ys.get ⟨i, hy⟩) := by
        have h1 := congrArg (fun l => l.get? i) hc
        simp only [List.get?_map] at h1
        rw [List.get?_eq_get hx, List.get?_eq_get hy] at h1
        simpa using h1
      rw [OwnedState.into_revealed_guard_pass _ hcsi]
      congr 1
      simp [List.get_zipWith]
  · intro x y xs ys e h
    simp [mergeVec, h]
  · intro x y xs ys m e h1 h2
    simp [mergeVec, h1, h2]

/-- C4 witness: a concrete same-kind, commitment-equal pair of length-2
collections, with the positional characterization at index 0. -/
theorem merge_collection_order_preservation_witness :
    ∃ r, (mkAssignments .CustomData
          [OwnedState.Revealed 1 2, OwnedState.Confidential 3 4] :
            Assignments Nat Nat Nat Nat).into_revealed
          (OwnedState.commit_serialize (id : Nat → Nat) (id : Nat → Nat))
          (mkAssignments .CustomData
            [OwnedState.Confidential 1 2, OwnedState.Confidential 3 4])
        = .ok (mkAssignments .CustomData r) ∧
      r.length = 2 ∧ (2 : Nat) = 2 ∧
      ∀ (i : Nat) (hx : i < 2) (hy : i < 2) (hr : i < r.length),
        OwnedState.into_revealed
            (OwnedState.commit_serialize (id : Nat → Nat) (id : Nat → Nat))
            (([OwnedState.Revealed 1 2,
               OwnedState.Confidential 3 4]).get ⟨i, hx⟩)
            (([OwnedState.Confidential 1 2,
               OwnedState.Confidential 3 4]).get ⟨i, hy⟩)
          = .ok (r.get ⟨i, hr⟩) :=
  (merge_collection_order_preservation
      (OwnedState.commit_serialize (id : Nat → Nat) (id : Nat → Nat))).1
    .CustomData
    [OwnedState.Revealed 1 2, OwnedState.Confidential 3 4]
    [OwnedState.Confidential 1 2, OwnedState.Confidential 3 4]
    (by decide)

/-- C6: the collection merge hits the fatal unreachable-state fault (not a
typed error) exactly when the two collections' consensus commitments are
equal but their kinds differ; in particular, under the precondition that
equal commitments imply equal kinds, the fatal branch is unreachable. -/
theorem merge_collection_kind_mismatch_fatal [DecidableEq γ]
    (cs : OwnedState SealR SealC StateR StateC → γ) :
    ∀ a b : Assignments SealR SealC StateR StateC,
      a.into_revealed cs b
          = .fatal "Assignments::consensus_commitments is broken"
        ↔ (a.consensus_commitments cs = b.consensus_commitments cs ∧
           a.kind ≠ b.kind) := by
  intro a b
  constructor
  · intro h
    by_cases hc : a.consensus_commitments cs = b.consensus_commitments cs
    · refine ⟨hc, fun hk => ?_⟩
      rw [Assignments.into_revealed_same_kind_ok cs hc hk] at h
      exact absurd h (by simp)
    · exfalso
      simp [Assignments.into_revealed, hc] at h
  · intro hck
    obtain ⟨hc, hk⟩ := hck
    cases a <;> cases b <;> simp [Assignments.kind] at hk <;>
      simp only [Assignments.consensus_commitments] at hc <;>
      simp [Assignments.into_revealed, Assignments.consensus_commitments, hc]

/-- C6 witness: two kind-mismatched collections reporting equal (empty)
aggregate commitments hit the fatal branch. -/
theorem merge_collection_kind_mismatch_fatal_witness :
    (Assignments.Declarative [] : Assignments Nat Nat Nat Nat).into_revealed
        (fun _ => (0 : Nat)) (Assignments.CustomData [])
      = .fatal "Assignments::consensus_commitments is broken" :=
  (merge_collection_kind_mismatch_fatal (fun _ => (0 : Nat))
    (Assignments.Declarative []) (Assignments.CustomData [])).mpr
    ⟨rfl, by decide⟩

/-! ### Map-layer claims -/

/-- C3: a singleton map `{k: A}` merged with `{k: B}` under equal
Merkle-sourced structural commitments returns `Ok {k: merge_collection(A,
B)}`; in general, the map merge zips the two maps' entries in key order
and, for each aligned pair, stores the succeeding collection merge of the
two values under the first map's key. -/
theorem merge_map_zip_by_key [DecidableEq γ]
    (cs : OwnedState SealR SealC StateR StateC → γ) :
    (∀ (k : Nat) (A B : Assignments SealR SealC StateR StateC),
      OwnedRightsInner.merkle_commit_serialize cs [(k, A)]
          = OwnedRightsInner.merkle_commit_serialize cs [(k, B)] →
      ∃ C, A.into_revealed cs B = .ok C ∧
        OwnedRightsInner.into_revealed cs [(k, A)] [(k, B)]
          = .ok [(k, C)]) ∧
    (∀ a b : OwnedRightsInner SealR SealC StateR StateC,
      List.Pairwise (fun p q => p.1 < q.1) a →
      OwnedRightsInner.merkle_commit_serialize cs a
          = OwnedRightsInner.merkle_commit_serialize cs b →
      ∃ l, OwnedRightsInner.into_revealed cs a b = .ok l ∧
        l.length = a.length ∧ b.length = a.length ∧
        ∀ (i : Nat) (ha : i < a.length) (hb : i < b.length)
            (hl : i < l.length),
          (l.get ⟨i, hl⟩).1 = (a.get ⟨i, ha⟩).1 ∧
          (a.get ⟨i, ha⟩).2.into_revealed cs (b.get ⟨i, hb⟩).2
            = .ok (l.get ⟨i, hl⟩).2) := by
  constructor
  · intro k A B h
    have h2 := h
    simp only [OwnedRightsInner.merkle_commit_serialize, List.map_cons,
      List.map_nil, List.cons.injEq, Prod.mk.injEq, and_true] at h2
    refine ⟨_, Assignments.into_revealed_same_kind_ok cs h2.2.2 h2.2.1, ?_⟩
    rw [OwnedRightsInner.into_revealed_of_merkle_eq cs (by simp) h]
    simp [mergedEntry]
  · intro a b hsort h
    have hlen : b.length = a.length := by
      have := congrArg List.length h
      simpa [OwnedRightsInner.merkle_commit_serialize] using this.symm
    refine ⟨List.zipWith mergedEntry a b,
      OwnedRightsInner.into_revealed_of_merkle_eq cs hsort h,
      by simp [hlen], hlen, ?_⟩
    intro i ha hb hl
    have hmap := h
    simp only [OwnedRightsInner.merkle_commit_serialize] at hmap
    have hpt := (List.forall₂_iff_get.mp
      (map_eq_forall₂ _ a b hmap)).2 i ha hb
    simp only [Prod.mk.injEq] at hpt
    constructor
    · simp [List.get_zipWith, mergedEntry]
    · rw [Assignments.into_revealed_same_kind_ok cs hpt.2.2 hpt.2.1]
      congr 1
      simp [List.get_zipWith, mergedEntry]

/-- C3 witness: a concrete singleton map pair with equal structural
commitments, merged key-wise. -/
theorem merge_map_zip_by_key_witness :
    ∃ C, (Assignments.CustomData [OwnedState.Revealed 1 2] :
          Assignments Nat Nat Nat Nat).into_revealed
          (OwnedState.commit_serialize (id : Nat → Nat) (id : Nat → Nat))
          (Assignments.CustomData [OwnedState.Confidential 1 2]) = .ok C ∧
      OwnedRightsInner.into_revealed
          (OwnedState.commit_serialize (id : Nat → Nat) (id : Nat → Nat))
          [(2, Assignments.CustomData [OwnedState.Revealed 1 2])]
          [(2, Assignments.CustomData [OwnedState.Confidential 1 2])]
        = .ok [(2, C)] :=
  (merge_map_zip_by_key _).1 2 _ _ (by decide)

end RgbCore
